import Mathlib

/-!
Verification development for the DL4SE-GUI backend (backend/main.py and
backend/database.py): a shallow embedding of the inventory lifecycle
(upload, classify, partial update, batch update), the AI-insight heuristic
and the SQLite-backed record store, together with proofs of the spec claims.

Python strings are modelled as Lean `String`, floats stored in records as `ℚ`
(SQLite REAL values compared and rounded exactly as the Python code does),
and the real-valued softmax of the model forward pass over `ℝ`.
-/

/-- Python `str.strip()`: drop leading and trailing whitespace. Modelled on the
character list so that it evaluates by kernel reduction. -/
def pyStrip (s : String) : String :=
  String.mk (((s.data.dropWhile Char.isWhitespace).reverse.dropWhile Char.isWhitespace).reverse)

/-- `pathlib.Path(p).name`: the part of the path after the last slash. -/
def pathName (p : String) : String :=
  String.mk ((p.data.reverse.takeWhile (fun c => c ≠ '/')).reverse)

/-- One row of the `inventory_items` SQLite table (= the fields of the
`InventoryItem` pydantic model in backend/main.py). -/
structure InventoryItem where
  id : String
  name : String
  status : String
  owner : String
  created_at : ℚ
  image_path : String
  notes : String
  score : Option ℚ
  label : Option ℤ
deriving DecidableEq

/-- `ALLOWED_STATUSES` from backend/main.py. -/
def ALLOWED_STATUSES : List String :=
  ["awaiting_review", "in_review", "needs_attention", "cleared"]

/-- An `HTTPException(status_code, detail)` raised by the endpoints. -/
structure ApiError where
  code : Nat
  detail : String
deriving DecidableEq

/-- `ensure_valid_status` from backend/main.py: strip, default the empty string
to `awaiting_review`, and reject anything outside `ALLOWED_STATUSES`. -/
def ensure_valid_status (value : Option String) : Except ApiError String :=
  let candidate0 := pyStrip (value.getD "")
  let candidate := if candidate0 = "" then "awaiting_review" else candidate0
  if candidate ∈ ALLOWED_STATUSES then Except.ok candidate
  else Except.error { code := 400, detail := "Status is not allowed." }

/-- The keyword arguments of `database.update_inventory_item`; a `none` field is
a kwarg that is absent or `None`, which the function skips. -/
structure DbUpdate where
  name : Option String
  status : Option String
  owner : Option String
  notes : Option String
  score : Option ℚ
  label : Option ℤ
deriving DecidableEq

/-- A `DbUpdate` with every field absent. -/
def DbUpdate.empty : DbUpdate :=
  { name := none, status := none, owner := none, notes := none, score := none, label := none }

/-- Effect of `database.update_inventory_item` on one row: each non-`None`
kwarg overwrites the corresponding column, the rest are untouched. -/
def applyDbUpdate (u : DbUpdate) (it : InventoryItem) : InventoryItem :=
  { it with
    name := u.name.getD it.name
    status := u.status.getD it.status
    owner := u.owner.getD it.owner
    notes := u.notes.getD it.notes
    score := match u.score with | some s => some s | none => it.score
    label := match u.label with | some l => some l | none => it.label }

/-- `database.update_inventory_item`: `UPDATE inventory_items SET ... WHERE id = ?`
applied to the stored rows. -/
def dbUpdateItem (item_id : String) (u : DbUpdate) (store : List InventoryItem) :
    List InventoryItem :=
  store.map (fun it => if it.id == item_id then applyDbUpdate u it else it)

/-- `database.get_inventory_item_by_id`: the row with the given primary key. -/
def findItem (item_id : String) (store : List InventoryItem) : Option InventoryItem :=
  store.find? (fun it => it.id == item_id)

/-- The `InventoryUpdateRequest` pydantic schema (partial-update payload). -/
structure InventoryUpdateRequest where
  name : Option String
  status : Option String
  notes : Option String
  owner : Option String
  append_notes : Bool
deriving DecidableEq

/-- The `InventoryBatchUpdateRequest` pydantic schema: the update fields plus
the target id list (`min_length=1`). -/
structure InventoryBatchUpdateRequest extends InventoryUpdateRequest where
  item_ids : List String
deriving DecidableEq

/-- Whether the `updates` dict built by the patch/batch-update endpoints is
non-empty: a key is added for every payload field that is not `None`. -/
def hasUpdates (p : InventoryUpdateRequest) : Bool :=
  p.name.isSome || p.status.isSome || p.owner.isSome || p.notes.isSome

/-- The `updates` dict built by `update_inventory_item_endpoint` and
`batch_update_inventory` for one item (identical code in both): trimmed name
falling back to the prior name when empty, validated status, trimmed owner,
and replace-or-append notes. Raises (returns an error) exactly when the
supplied status fails `ensure_valid_status`. -/
def buildUpdates (p : InventoryUpdateRequest) (item : InventoryItem) :
    Except ApiError DbUpdate := do
  let uname : Option String :=
    p.name.map (fun n => if pyStrip n = "" then item.name else pyStrip n)
  let ustatus : Option String ←
    match p.status with
    | none => pure none
    | some st => (ensure_valid_status (some (pyStrip st))).map some
  let uowner : Option String := p.owner.map pyStrip
  let unotes : Option String :=
    p.notes.map (fun n =>
      if p.append_notes ∧ item.notes ≠ "" then item.notes ++ "\n" ++ pyStrip n
      else pyStrip n)
  pure { name := uname, status := ustatus, owner := uowner, notes := unotes,
         score := none, label := none }

/-- `update_inventory_item_endpoint` (PATCH /api/inventory/item_id): look the
item up, build the updates dict (validating status), apply it when non-empty,
and return the freshly fetched row. The first component is the store after the
call; the second is the HTTP outcome. -/
def update_inventory_item_endpoint (item_id : String) (p : InventoryUpdateRequest)
    (store : List InventoryItem) :
    List InventoryItem × Except ApiError (Option InventoryItem) :=
  match findItem item_id store with
  | none => (store, Except.error { code := 404, detail := "Inventory item not found" })
  | some item =>
    match buildUpdates p item with
    | Except.error e => (store, Except.error e)
    | Except.ok u =>
      let store2 := if hasUpdates p then dbUpdateItem item_id u store else store
      (store2, Except.ok (findItem item_id store2))

/-- Loop body of `batch_update_inventory`: process the target ids in order,
skipping unknown ids, applying the updates dict when non-empty and counting
how many items were updated. An invalid status aborts the loop (the store at
that point is returned unchanged in that iteration). -/
def batch_go (p : InventoryBatchUpdateRequest) :
    List String → List InventoryItem → Nat → List InventoryItem × Except ApiError Nat
  | [], store, count => (store, Except.ok count)
  | item_id :: rest, store, count =>
    match findItem item_id store with
    | none => batch_go p rest store count
    | some item =>
      match buildUpdates p.toInventoryUpdateRequest item with
      | Except.error e => (store, Except.error e)
      | Except.ok u =>
        if hasUpdates p.toInventoryUpdateRequest then
          batch_go p rest (dbUpdateItem item_id u store) (count + 1)
        else
          batch_go p rest store count

/-- `batch_update_inventory` (POST /api/inventory/batch-update): deduplicate
the ids (`set(payload.item_ids)`), update every existing id, raise 404 when
`updated_count == 0`, otherwise return the full listing. -/
def batch_update_inventory (p : InventoryBatchUpdateRequest)
    (store : List InventoryItem) :
    List InventoryItem × Except ApiError (List InventoryItem) :=
  let targets := p.item_ids.dedup
  if targets = [] then
    (store, Except.error { code := 400, detail := "item_ids cannot be empty" })
  else
    match batch_go p targets store 0 with
    | (store2, Except.error e) => (store2, Except.error e)
    | (store2, Except.ok count) =>
      if count = 0 then
        (store2, Except.error { code := 404, detail := "No matching items found" })
      else (store2, Except.ok store2)

/-- Value of one base64 alphabet character (`A-Za-z0-9+/`). -/
def b64CharVal (c : Char) : Option Nat :=
  if 'A' ≤ c ∧ c ≤ 'Z' then some (c.toNat - 65)
  else if 'a' ≤ c ∧ c ≤ 'z' then some (c.toNat - 97 + 26)
  else if '0' ≤ c ∧ c ≤ '9' then some (c.toNat - 48 + 52)
  else if c = '+' then some 62
  else if c = '/' then some 63
  else none

/-- Strict base64 decoding of a character list, modelling
`base64.b64decode(s, validate=True)`: groups of four alphabet characters,
with `=` padding only in the final group; anything else fails. -/
def b64decodeChars : List Char → Option (List Nat)
  | [] => some []
  | c1 :: c2 :: c3 :: c4 :: rest =>
    match b64CharVal c1, b64CharVal c2 with
    | some v1, some v2 =>
      if c3 = '=' then
        if c4 = '=' ∧ rest = [] then some [v1 * 4 + v2 / 16] else none
      else
        match b64CharVal c3 with
        | none => none
        | some v3 =>
          if c4 = '=' then
            if rest = [] then some [v1 * 4 + v2 / 16, v2 % 16 * 16 + v3 / 4] else none
          else
            match b64CharVal c4 with
            | none => none
            | some v4 =>
              (b64decodeChars rest).map
                (fun bs => (v1 * 4 + v2 / 16) :: (v2 % 16 * 16 + v3 / 4) :: (v3 % 4 * 64 + v4) :: bs)
    | _, _ => none
  | _ => none

/-- `base64.b64decode(raw, validate=True)` on a string; `none` models the
raised `binascii.Error`. -/
def b64decode (s : String) : Option (List Nat) :=
  b64decodeChars s.data

/-- One entry of the `InventoryUploadRequest.items` list: a JSON object with
the base64 image data and optional metadata fields. -/
structure UploadEntry where
  image_base64 : String
  name : Option String
  status : Option String
  owner : Option String
  notes : Option String
deriving DecidableEq

/-- The record inserted by `upload_inventory` for the k-th entry of a batch:
fresh uuid and timestamp (supplied by the oracles `ids` and `times`), name
defaulting to "Item", validated status, and absent score/label. -/
def mkUploadItem (ids : Nat → String) (times : Nat → ℚ) (k : Nat) (e : UploadEntry)
    (st : String) : InventoryItem :=
  { id := ids k
    name := if e.name.getD "" = "" then "Item" else e.name.getD ""
    status := st
    owner := e.owner.getD ""
    created_at := times k
    image_path := "/inventory/images/" ++ ids k ++ ".png"
    notes := e.notes.getD ""
    score := none
    label := none }

/-- Loop of `upload_inventory`: validate each entry (non-empty payload, valid
base64, allowed status) and insert its record, sequentially; an invalid entry
raises at that point, leaving the records of the earlier entries persisted. -/
def upload_go (ids : Nat → String) (times : Nat → ℚ) :
    Nat → List UploadEntry → List InventoryItem → List InventoryItem × Option ApiError
  | _, [], store => (store, none)
  | k, e :: rest, store =>
    if pyStrip e.image_base64 = "" then
      (store, some { code := 400, detail := "Each item must include image_base64 data." })
    else
      match b64decode e.image_base64 with
      | none => (store, some { code := 400, detail := "Invalid base64 in one of the items." })
      | some _ =>
        match ensure_valid_status e.status with
        | Except.error err => (store, some err)
        | Except.ok st =>
          upload_go ids times (k + 1) rest (store ++ [mkUploadItem ids times k e st])

/-- `upload_inventory` (POST /api/inventory/upload): process the batch and
return the full listing, or surface the first validation failure. -/
def upload_inventory (ids : Nat → String) (times : Nat → ℚ) (entries : List UploadEntry)
    (store : List InventoryItem) :
    List InventoryItem × Except ApiError (List InventoryItem) :=
  match upload_go ids times 0 entries store with
  | (store2, none) => (store2, Except.ok store2)
  | (store2, some e) => (store2, Except.error e)

/-- The resolved image file `INVENTORY_IMAGES_DIR / Path(item.image_path).name`,
as a path string relative to the backend directory. -/
def imageFileOf (image_path : String) : String :=
  "inventory/images/" ++ pathName image_path

/-- Outcome of loading, preprocessing and running the model on one stored
image: a score/label pair (the floats computed by the forward pass), or an
exception with its message. -/
inductive InferOutcome where
  | ok (score : ℚ) (label : ℤ) : InferOutcome
  | exc (msg : String) : InferOutcome
deriving DecidableEq

/-- The `database.update_inventory_item` kwargs issued by one iteration of
`classify_inventory` for a given item: a missing image replaces the notes with
a "Missing image" diagnostic, a successful inference stores score/label and
the derived status, and an exception replaces the notes with the error. -/
def classifyUpdate (imageExists : String → Bool) (infer : String → InferOutcome)
    (it : InventoryItem) : DbUpdate :=
  if imageExists (imageFileOf it.image_path) = false then
    { DbUpdate.empty with notes := some ("Missing image: " ++ imageFileOf it.image_path) }
  else
    match infer (imageFileOf it.image_path) with
    | InferOutcome.ok sc lb =>
      { DbUpdate.empty with
        score := some sc
        label := some lb
        status := some (if lb = 1 then "needs_attention" else "cleared") }
    | InferOutcome.exc m =>
      { DbUpdate.empty with notes := some ("Classification error: " ++ m) }

/-- One iteration of the `classify_inventory` loop, applied to the store. -/
def classify_step (imageExists : String → Bool) (infer : String → InferOutcome)
    (store : List InventoryItem) (it : InventoryItem) : List InventoryItem :=
  dbUpdateItem it.id (classifyUpdate imageExists infer it) store

/-- `classify_inventory` (POST /api/inventory/classify): snapshot the rows,
then update each one in turn; per-item failures are recorded as notes and
never abort the loop, so the endpoint always returns the final listing. -/
def classify_inventory (imageExists : String → Bool) (infer : String → InferOutcome)
    (store : List InventoryItem) : List InventoryItem :=
  store.foldl (classify_step imageExists infer) store

/-- Python `round(x, 3)` (round half to even), computed on the exact rational:
the integer nearest to 1000*q (ties going to the even integer), divided by
1000. Spelled out on numerator and denominator so that it evaluates by
kernel reduction. -/
def round3 (q : ℚ) : ℚ :=
  let a : ℤ := 1000 * q.num
  let d : ℤ := (q.den : ℤ)
  let f : ℤ := Int.fdiv a d
  let r : ℤ := a - f * d
  let n : ℤ :=
    if 2 * r < d then f
    else if d < 2 * r then f + 1
    else if f % 2 = 0 then f else f + 1
  mkRat n 1000

/-- The insight object returned per item by the ai-insights endpoint. -/
structure AiInsight where
  item_id : String
  name : String
  current_status : String
  recommended_status : String
  priority : String
  owner_hint : String
  confidence : Option ℚ
  summary : String
  suggested_note : String
deriving DecidableEq

/-- The per-item insight heuristic of the ai-insights endpoint (the inline
copy of `build_ai_insight` in `ai_insights`, backend/main.py lines 629-673):
defaults computed from `score or 0.0`, then the threshold chain on the score
overrides status, priority, owner hint and messages. -/
def build_ai_insight (item : InventoryItem) : AiInsight :=
  let score : ℚ := item.score.getD 0
  let has_prediction : Bool := item.score.isSome
  let recommended_status0 : String := if has_prediction then "in_review" else "awaiting_review"
  let priority0 : String := if has_prediction then "medium" else "low"
  let owner_hint0 : String :=
    if item.owner ≠ "" then item.owner
    else if mkRat 6 10 ≤ score then "Maintenance" else "Quality"
  let suggested_note0 : String := "Item has not been classified yet. Schedule inspection."
  let branch : String × String × String × String × String :=
    if has_prediction = false then
      (recommended_status0, priority0, owner_hint0,
       "No prediction data available; prompt the lab to classify this image.",
       suggested_note0)
    else if mkRat 85 100 ≤ score then
      ("needs_attention", "critical", "Reliability",
       "Model flags this component as highly likely defective. Quarantine the lot immediately.",
       "Hold shipment, escalate to reliability engineering, and initiate tear-down analysis.")
    else if mkRat 65 100 ≤ score then
      ("needs_attention", "high", "Maintenance",
       "Elevated defect probability; prioritize rework and secondary inspection.",
       "Route to maintenance for rework and request ultrasonic verification.")
    else if mkRat 45 100 ≤ score then
      ("in_review", "elevated", owner_hint0,
       "Borderline reading; keep under observation and sample additional units.",
       "Add to the monitoring queue and capture more samples from the same batch.")
    else
      ("cleared", "low", if item.owner ≠ "" then item.owner else "Quality",
       "Low likelihood of defect; release after visual confirmation.",
       "Log QA spot check and release to assembly if no manual defects are found.")
  { item_id := item.id
    name := item.name
    current_status := item.status
    recommended_status := branch.1
    priority := branch.2.1
    owner_hint := branch.2.2.1
    confidence := if item.score.isSome then some (round3 score) else none
    summary := branch.2.2.2.1
    suggested_note := branch.2.2.2.2 }

/-- Softmax over the two logits of the forward pass
(`F.softmax(logits, dim=1)`). -/
noncomputable def softmax2 (z0 z1 : ℝ) : ℝ × ℝ :=
  (Real.exp z0 / (Real.exp z0 + Real.exp z1),
   Real.exp z1 / (Real.exp z0 + Real.exp z1))

/-- `score = probs[0, 1]`: the softmax probability of the defect class. -/
noncomputable def scoreOf (z0 z1 : ℝ) : ℝ :=
  (softmax2 z0 z1).2

/-- `label = probs.argmax(dim=1)`: 1 when the defect probability is strictly
larger, 0 otherwise (ties go to the first index). -/
noncomputable def labelOf (z0 z1 : ℝ) : ℤ :=
  if (softmax2 z0 z1).1 < (softmax2 z0 z1).2 then 1 else 0

/-- The store invariant of the spec: every row has an allowed status and has
score and label either both present or both absent. -/
def StoreInv (store : List InventoryItem) : Prop :=
  ∀ it ∈ store, it.status ∈ ALLOWED_STATUSES ∧ (it.score = none ↔ it.label = none)

instance : DecidablePred StoreInv := fun store =>
  List.decidableBAll _ store

/-- The mutable world seen by the endpoints: the SQLite `inventory_items`
table and the JSON file at `INVENTORY_DB_PATH` (absent or a list of records),
which only `load_inventory` ever reads. -/
structure World where
  db : List InventoryItem
  jsonFile : Option (List InventoryItem)

/-- `load_inventory` from backend/main.py: parse the JSON file, or return the
empty list when the file does not exist. -/
def load_inventory (w : World) : List InventoryItem :=
  w.jsonFile.getD []

/-- The `inventory_count` field of the health endpoint:
`len(load_inventory())`. -/
def inventory_count (w : World) : Nat :=
  (load_inventory w).length

/-- One inventory API call (upload, classify, partial update, batch update, or
the listing endpoint), with its external oracles. -/
inductive ApiOp where
  | upload (ids : Nat → String) (times : Nat → ℚ) (entries : List UploadEntry) : ApiOp
  | classify (imageExists : String → Bool) (infer : String → InferOutcome) : ApiOp
  | partialUpdate (item_id : String) (p : InventoryUpdateRequest) : ApiOp
  | batchUpdate (p : InventoryBatchUpdateRequest) : ApiOp
  | listAll : ApiOp

/-- Effect of one API call on the world: each endpoint reads and writes only
the SQLite store; none of them touches the JSON file. -/
def runOp (w : World) : ApiOp → World
  | ApiOp.upload ids times entries => { w with db := (upload_inventory ids times entries w.db).1 }
  | ApiOp.classify imageExists infer => { w with db := classify_inventory imageExists infer w.db }
  | ApiOp.partialUpdate item_id p => { w with db := (update_inventory_item_endpoint item_id p w.db).1 }
  | ApiOp.batchUpdate p => { w with db := (batch_update_inventory p w.db).1 }
  | ApiOp.listAll => w

/-- A sequence of API calls, run left to right. -/
def runOps (w : World) (ops : List ApiOp) : World :=
  ops.foldl runOp w

/-- Whether the payload's status field passes `ensure_valid_status`; this does
not depend on the item being updated. -/
def statusOk (p : InventoryUpdateRequest) : Bool :=
  match p.status with
  | none => true
  | some st =>
    match ensure_valid_status (some (pyStrip st)) with
    | Except.ok _ => true
    | Except.error _ => false

/-- An image-existence oracle under which every stored image file is present. -/
def allImages : String → Bool := fun _ => true

/-- An image-existence oracle under which every stored image file is missing. -/
def noImage : String → Bool := fun _ => false

/-- An inference oracle returning score 0.5 and label 1 for every image. -/
def inferConst : String → InferOutcome := fun _ => InferOutcome.ok (mkRat 1 2) 1

/-- An inference oracle that always raises. -/
def inferBoom : String → InferOutcome := fun _ => InferOutcome.exc "boom"

/-- A constant uuid oracle for concrete upload runs. -/
def ids0 : Nat → String := fun _ => "generated-id"

/-- A constant timestamp oracle for concrete upload runs. -/
def times0 : Nat → ℚ := fun _ => 0

/-- Concrete record with score exactly 0.85 (threshold boundary). -/
def itemW1 : InventoryItem :=
  { id := "w1", name := "Part", status := "in_review", owner := "", created_at := 0,
    image_path := "/inventory/images/w1.png", notes := "", score := some (mkRat 85 100),
    label := some 1 }

/-- Concrete record with no owner and a borderline score of 0.5. -/
def itemW2 : InventoryItem :=
  { id := "w2", name := "Part", status := "in_review", owner := "", created_at := 0,
    image_path := "/inventory/images/w2.png", notes := "", score := some (mkRat 1 2),
    label := some 1 }

/-- Concrete record whose owner is set to Alice and whose score is 0.9. -/
def itemC2 : InventoryItem :=
  { id := "item-1", name := "Widget", status := "needs_attention", owner := "Alice",
    created_at := 0, image_path := "/inventory/images/a.png", notes := "",
    score := some (mkRat 9 10), label := some 1 }

/-- Concrete unclassified record used for classification runs. -/
def itemW3 : InventoryItem :=
  { id := "w3", name := "Rotor", status := "awaiting_review", owner := "", created_at := 0,
    image_path := "/inventory/images/w3.png", notes := "", score := none, label := none }

/-- Concrete unclassified record with pre-existing notes. -/
def itemC4 : InventoryItem :=
  { id := "c4", name := "Bolt", status := "awaiting_review", owner := "", created_at := 0,
    image_path := "/inventory/images/c4.png", notes := "prior note", score := none,
    label := none }

/-- A valid upload entry ("ABC" in base64). -/
def entryGood : UploadEntry :=
  { image_base64 := "QUJD", name := some "Good", status := none, owner := none, notes := none }

/-- An upload entry with an empty image payload. -/
def entryBad : UploadEntry :=
  { image_base64 := "", name := some "Bad", status := none, owner := none, notes := none }

/-- Concrete stored record used for partial-update runs. -/
def itemC6 : InventoryItem :=
  { id := "c6", name := "Gear", status := "cleared", owner := "Bob", created_at := 0,
    image_path := "/inventory/images/c6.png", notes := "old", score := none, label := none }

/-- A partial-update payload whose status is whitespace only. -/
def reqC6 : InventoryUpdateRequest :=
  { name := none, status := some "   ", notes := none, owner := none, append_notes := false }

/-- A partial-update payload exercising every merge rule. -/
def reqC6W : InventoryUpdateRequest :=
  { name := some "  New Name  ", status := some " cleared ", notes := some " checked ",
    owner := some "  ", append_notes := false }

/-- Concrete stored record used for batch-update runs. -/
def itemC7 : InventoryItem :=
  { id := "c7", name := "Axle", status := "in_review", owner := "", created_at := 0,
    image_path := "/inventory/images/c7.png", notes := "", score := none, label := none }

/-- A batch-update payload naming an existing id but supplying no fields. -/
def reqC7 : InventoryBatchUpdateRequest :=
  { name := none, status := none, notes := none, owner := none, append_notes := false,
    item_ids := ["c7"] }

/-- A batch-update payload renaming the record with id c7. -/
def reqC7W : InventoryBatchUpdateRequest :=
  { name := some "Renamed", status := none, notes := none, owner := none,
    append_notes := false, item_ids := ["c7"] }

/-- Concrete stored record used for the no-op partial update. -/
def itemC9 : InventoryItem :=
  { id := "c9", name := "Cam", status := "needs_attention", owner := "Eve", created_at := 0,
    image_path := "/inventory/images/c9.png", notes := "seen", score := some (mkRat 3 4),
    label := some 1 }

theorem applyDbUpdate_id (u : DbUpdate) (it : InventoryItem) :
    (applyDbUpdate u it).id = it.id := rfl

theorem findItem_id {item_id : String} {store : List InventoryItem} {it : InventoryItem}
    (h : findItem item_id store = some it) : it.id = item_id := by
  have h2 := List.find?_some h
  simpa using h2

theorem findItem_dbUpdateItem (i x : String) (u : DbUpdate) (s : List InventoryItem) :
    findItem x (dbUpdateItem i u s) =
      (findItem x s).map (fun it => if it.id == i then applyDbUpdate u it else it) := by
  unfold findItem dbUpdateItem
  rw [List.find?_map]
  have hp : ((fun it : InventoryItem => it.id == x) ∘
      fun it => if it.id == i then applyDbUpdate u it else it) =
      (fun it : InventoryItem => it.id == x) := by
    funext it
    by_cases h : it.id == i <;> simp [Function.comp, h, applyDbUpdate_id]
  rw [hp]

theorem findItem_dbUpdateItem_ne {i x : String} (h : x ≠ i) (u : DbUpdate)
    (s : List InventoryItem) :
    findItem x (dbUpdateItem i u s) = findItem x s := by
  rw [findItem_dbUpdateItem]
  cases hf : findItem x s with
  | none => rfl
  | some it =>
    have hid : it.id = x := findItem_id hf
    simp [hid, h]

theorem findItem_dbUpdateItem_self {i : String} {s : List InventoryItem} {it : InventoryItem}
    (hf : findItem i s = some it) (u : DbUpdate) :
    findItem i (dbUpdateItem i u s) = some (applyDbUpdate u it) := by
  rw [findItem_dbUpdateItem, hf]
  have hid : it.id = i := findItem_id hf
  simp [hid]

theorem dbUpdateItem_map_id (i : String) (u : DbUpdate) (s : List InventoryItem) :
    (dbUpdateItem i u s).map InventoryItem.id = s.map InventoryItem.id := by
  unfold dbUpdateItem
  rw [List.map_map]
  have hp : (InventoryItem.id ∘ fun it => if it.id == i then applyDbUpdate u it else it) =
      InventoryItem.id := by
    funext it
    by_cases h : it.id == i <;> simp [Function.comp, h, applyDbUpdate_id]
  rw [hp]

theorem findItem_dbUpdateItem_none {x i : String} {u : DbUpdate} {s : List InventoryItem} :
    findItem x (dbUpdateItem i u s) = none ↔ findItem x s = none := by
  rw [findItem_dbUpdateItem]
  cases findItem x s <;> simp

theorem ensure_valid_status_ok {v : Option String} {st : String}
    (h : ensure_valid_status v = Except.ok st) : st ∈ ALLOWED_STATUSES := by
  unfold ensure_valid_status at h
  dsimp only at h
  by_cases he : pyStrip (v.getD "") = ""
  · rw [if_pos he, if_pos (show "awaiting_review" ∈ ALLOWED_STATUSES by decide)] at h
    simp only [Except.ok.injEq] at h
    subst h
    decide
  · rw [if_neg he] at h
    by_cases hm : pyStrip (v.getD "") ∈ ALLOWED_STATUSES
    · rw [if_pos hm] at h
      simp only [Except.ok.injEq] at h
      subst h
      exact hm
    · rw [if_neg hm] at h
      cases h

theorem buildUpdates_status_none {p : InventoryUpdateRequest} {item : InventoryItem}
    (h : p.status = none) :
    buildUpdates p item = Except.ok
      { name := p.name.map (fun n => if pyStrip n = "" then item.name else pyStrip n)
        status := none
        owner := p.owner.map pyStrip
        notes := p.notes.map (fun n =>
          if p.append_notes ∧ item.notes ≠ "" then item.notes ++ "\n" ++ pyStrip n
          else pyStrip n)
        score := none
        label := none } := by
  unfold buildUpdates
  rw [h]
  rfl

theorem buildUpdates_status_some_ok {p : InventoryUpdateRequest} {item : InventoryItem}
    {st c : String} (h : p.status = some st)
    (hc : ensure_valid_status (some (pyStrip st)) = Except.ok c) :
    buildUpdates p item = Except.ok
      { name := p.name.map (fun n => if pyStrip n = "" then item.name else pyStrip n)
        status := some c
        owner := p.owner.map pyStrip
        notes := p.notes.map (fun n =>
          if p.append_notes ∧ item.notes ≠ "" then item.notes ++ "\n" ++ pyStrip n
          else pyStrip n)
        score := none
        label := none } := by
  unfold buildUpdates
  rw [h]
  dsimp only
  rw [hc]
  rfl

theorem buildUpdates_status_some_err {p : InventoryUpdateRequest} {item : InventoryItem}
    {st : String} {e : ApiError} (h : p.status = some st)
    (hc : ensure_valid_status (some (pyStrip st)) = Except.error e) :
    buildUpdates p item = Except.error e := by
  unfold buildUpdates
  rw [h]
  dsimp only
  rw [hc]
  rfl

theorem buildUpdates_isOk_of_statusOk {p : InventoryUpdateRequest}
    (h : statusOk p = true) (item : InventoryItem) :
    ∃ u, buildUpdates p item = Except.ok u := by
  cases hst : p.status with
  | none => exact ⟨_, buildUpdates_status_none hst⟩
  | some st =>
    unfold statusOk at h
    rw [hst] at h
    dsimp only at h
    cases hc : ensure_valid_status (some (pyStrip st)) with
    | ok c => exact ⟨_, buildUpdates_status_some_ok hst hc⟩
    | error e =>
      rw [hc] at h
      cases h

theorem buildUpdates_isErr_of_statusOk_false {p : InventoryUpdateRequest}
    (h : statusOk p = false) (item : InventoryItem) :
    ∃ e, buildUpdates p item = Except.error e := by
  cases hst : p.status with
  | none =>
    unfold statusOk at h
    rw [hst] at h
    cases h
  | some st =>
    unfold statusOk at h
    rw [hst] at h
    dsimp only at h
    cases hc : ensure_valid_status (some (pyStrip st)) with
    | ok c =>
      rw [hc] at h
      cases h
    | error e => exact ⟨_, buildUpdates_status_some_err hst hc⟩

theorem buildUpdates_err_item_indep {p : InventoryUpdateRequest}
    {item item2 : InventoryItem} {e : ApiError}
    (h : buildUpdates p item = Except.error e) :
    buildUpdates p item2 = Except.error e := by
  cases hst : p.status with
  | none =>
    rw [buildUpdates_status_none hst] at h
    cases h
  | some st =>
    cases hc : ensure_valid_status (some (pyStrip st)) with
    | ok c =>
      rw [buildUpdates_status_some_ok hst hc] at h
      cases h
    | error e2 =>
      rw [buildUpdates_status_some_err hst hc] at h
      cases h
      exact buildUpdates_status_some_err hst hc

theorem ensure_valid_status_empty {v : String} (h : pyStrip v = "") :
    ensure_valid_status (some v) = Except.ok "awaiting_review" := by
  unfold ensure_valid_status
  dsimp only
  rw [Option.getD_some, h, if_pos rfl,
    if_pos (show "awaiting_review" ∈ ALLOWED_STATUSES by decide)]

theorem ALLOWED_STATUSES_ne_empty {st : String} (h : st ∈ ALLOWED_STATUSES) : st ≠ "" := by
  fin_cases h <;> decide

theorem ensure_valid_status_mem {v : String} (h : pyStrip v ∈ ALLOWED_STATUSES) :
    ensure_valid_status (some v) = Except.ok (pyStrip v) := by
  unfold ensure_valid_status
  dsimp only
  rw [Option.getD_some, if_neg (ALLOWED_STATUSES_ne_empty h), if_pos h]

theorem ensure_valid_status_err {v : String} (h1 : pyStrip v ≠ "")
    (h2 : pyStrip v ∉ ALLOWED_STATUSES) :
    ensure_valid_status (some v) =
      Except.error { code := 400, detail := "Status is not allowed." } := by
  unfold ensure_valid_status
  dsimp only
  rw [Option.getD_some, if_neg h1, if_neg h2]

theorem applyDbUpdate_score_none {u : DbUpdate} {it : InventoryItem} (h : u.score = none) :
    (applyDbUpdate u it).score = it.score := by
  simp [applyDbUpdate, h]

theorem applyDbUpdate_score_some {u : DbUpdate} {it : InventoryItem} {q : ℚ}
    (h : u.score = some q) : (applyDbUpdate u it).score = some q := by
  simp [applyDbUpdate, h]

theorem applyDbUpdate_label_none {u : DbUpdate} {it : InventoryItem} (h : u.label = none) :
    (applyDbUpdate u it).label = it.label := by
  simp [applyDbUpdate, h]

theorem applyDbUpdate_label_some {u : DbUpdate} {it : InventoryItem} {l : ℤ}
    (h : u.label = some l) : (applyDbUpdate u it).label = some l := by
  simp [applyDbUpdate, h]

theorem StoreInv_dbUpdateItem {s : List InventoryItem} (hs : StoreInv s) {u : DbUpdate}
    (hstat : ∀ st, u.status = some st → st ∈ ALLOWED_STATUSES)
    (hsl : (u.score = none ∧ u.label = none) ∨ (u.score ≠ none ∧ u.label ≠ none))
    (i : String) : StoreInv (dbUpdateItem i u s) := by
  intro it hit
  unfold dbUpdateItem at hit
  rcases List.mem_map.1 hit with ⟨it0, hm0, heq⟩
  subst heq
  by_cases h : it0.id == i
  · rw [if_pos h]
    constructor
    · cases hu : u.status with
      | none => simpa [applyDbUpdate, hu] using (hs it0 hm0).1
      | some st => simpa [applyDbUpdate, hu] using hstat st hu
    · rcases hsl with ⟨h1, h2⟩ | ⟨h1, h2⟩
      · rw [applyDbUpdate_score_none h1, applyDbUpdate_label_none h2]
        exact (hs it0 hm0).2
      · rcases Option.ne_none_iff_exists'.1 h1 with ⟨q, hq⟩
        rcases Option.ne_none_iff_exists'.1 h2 with ⟨l, hl⟩
        rw [applyDbUpdate_score_some hq, applyDbUpdate_label_some hl]
        simp
  · rw [if_neg h]
    exact hs it0 hm0

theorem classify_fold_frame (imageExists : String → Bool) (infer : String → InferOutcome)
    {x : String} (l : List InventoryItem) (hl : ∀ it ∈ l, it.id ≠ x)
    (s : List InventoryItem) :
    findItem x (l.foldl (classify_step imageExists infer) s) = findItem x s := by
  induction l generalizing s with
  | nil => rfl
  | cons a l ih =>
    rw [List.foldl_cons]
    rw [ih (fun it hit => hl it (List.mem_cons_of_mem a hit))]
    exact findItem_dbUpdateItem_ne (Ne.symm (hl a (List.mem_cons_self a l))) _ _

theorem classify_find (imageExists : String → Bool) (infer : String → InferOutcome)
    {s : List InventoryItem} (hnd : (s.map InventoryItem.id).Nodup)
    {it : InventoryItem} (hm : it ∈ s) :
    findItem it.id (classify_inventory imageExists infer s) =
      some (applyDbUpdate (classifyUpdate imageExists infer it) it) := by
  obtain ⟨l1, l2, rfl⟩ := List.append_of_mem hm
  have hnd2 := hnd
  rw [List.map_append, List.map_cons, List.nodup_append] at hnd2
  obtain ⟨h1, h2, hdisj⟩ := hnd2
  have hx2 : ∀ a ∈ l2, a.id ≠ it.id := by
    intro a ha heq
    have hmem : it.id ∈ l2.map InventoryItem.id := heq ▸ List.mem_map_of_mem _ ha
    exact (List.nodup_cons.1 h2).1 hmem
  have hx1 : ∀ a ∈ l1, a.id ≠ it.id := by
    intro a ha heq
    exact hdisj (List.mem_map_of_mem _ ha) (heq ▸ List.mem_cons_self _ _)
  unfold classify_inventory
  rw [List.foldl_append, List.foldl_cons]
  rw [classify_fold_frame _ _ l2 hx2 _]
  unfold classify_step
  have hfind : findItem it.id
      (List.foldl (classify_step imageExists infer) (l1 ++ it :: l2) l1) = some it := by
    rw [classify_fold_frame _ _ l1 hx1 _]
    unfold findItem
    rw [List.find?_append]
    have hnone : List.find? (fun a => a.id == it.id) l1 = none :=
      List.find?_eq_none.2 (fun a ha => by simp [hx1 a ha])
    rw [hnone]
    simp [List.find?_cons]
  exact findItem_dbUpdateItem_self hfind _

theorem classifyUpdate_status_safe (imageExists : String → Bool)
    (infer : String → InferOutcome) (it : InventoryItem) :
    ∀ st, (classifyUpdate imageExists infer it).status = some st →
      st ∈ ALLOWED_STATUSES := by
  intro st hst
  unfold classifyUpdate at hst
  split at hst
  · cases hst
  · split at hst
    · simp only [DbUpdate.empty] at hst
      cases hst
      split <;> decide
    · cases hst

theorem classifyUpdate_score_label_safe (imageExists : String → Bool)
    (infer : String → InferOutcome) (it : InventoryItem) :
    ((classifyUpdate imageExists infer it).score = none ∧
      (classifyUpdate imageExists infer it).label = none) ∨
    ((classifyUpdate imageExists infer it).score ≠ none ∧
      (classifyUpdate imageExists infer it).label ≠ none) := by
  unfold classifyUpdate
  split
  · left
    exact ⟨rfl, rfl⟩
  · split
    · right
      constructor <;> simp [DbUpdate.empty]
    · left
      exact ⟨rfl, rfl⟩

theorem StoreInv_classify (imageExists : String → Bool) (infer : String → InferOutcome)
    {s : List InventoryItem} (hs : StoreInv s) :
    StoreInv (classify_inventory imageExists infer s) := by
  unfold classify_inventory
  have hgen : ∀ (l : List InventoryItem) (s0 : List InventoryItem), StoreInv s0 →
      StoreInv (List.foldl (classify_step imageExists infer) s0 l) := by
    intro l
    induction l with
    | nil => exact fun s0 h => h
    | cons a l ih =>
      intro s0 h
      rw [List.foldl_cons]
      apply ih
      exact StoreInv_dbUpdateItem h (classifyUpdate_status_safe _ _ _)
        (classifyUpdate_score_label_safe _ _ _) _
  exact hgen s s hs

theorem statusOk_of_buildUpdates_ok {p : InventoryUpdateRequest} {it : InventoryItem}
    {u : DbUpdate} (h : buildUpdates p it = Except.ok u) : statusOk p = true := by
  cases hst : p.status with
  | none => simp [statusOk, hst]
  | some st =>
    cases hc : ensure_valid_status (some (pyStrip st)) with
    | ok c => simp [statusOk, hst, hc]
    | error e =>
      rw [buildUpdates_status_some_err hst hc] at h
      cases h

theorem buildUpdates_safe {p : InventoryUpdateRequest} {it : InventoryItem} {u : DbUpdate}
    (h : buildUpdates p it = Except.ok u) :
    (∀ st, u.status = some st → st ∈ ALLOWED_STATUSES) ∧ u.score = none ∧ u.label = none := by
  cases hst : p.status with
  | none =>
    rw [buildUpdates_status_none hst] at h
    cases h
    refine ⟨fun st hst2 => ?_, rfl, rfl⟩
    cases hst2
  | some st =>
    cases hc : ensure_valid_status (some (pyStrip st)) with
    | ok c =>
      rw [buildUpdates_status_some_ok hst hc] at h
      cases h
      refine ⟨fun st2 hst2 => ?_, rfl, rfl⟩
      cases hst2
      exact ensure_valid_status_ok hc
    | error e =>
      rw [buildUpdates_status_some_err hst hc] at h
      cases h

theorem batch_go_frame (p : InventoryBatchUpdateRequest) {x : String} (L : List String) :
    ∀ (s : List InventoryItem) (c : Nat), x ∉ L →
      findItem x (batch_go p L s c).1 = findItem x s := by
  induction L with
  | nil => intro s c _; rfl
  | cons i L ih =>
    intro s c hx
    have hxi : x ≠ i := fun h => hx (h ▸ List.mem_cons_self i L)
    have hxL : x ∉ L := fun h => hx (List.mem_cons_of_mem i h)
    unfold batch_go
    cases hf : findItem i s with
    | none => exact ih s c hxL
    | some item =>
      dsimp only
      cases hb : buildUpdates p.toInventoryUpdateRequest item with
      | error e => rfl
      | ok u =>
        dsimp only
        by_cases hU : hasUpdates p.toInventoryUpdateRequest = true
        · rw [if_pos hU, ih _ _ hxL]
          exact findItem_dbUpdateItem_ne hxi _ _
        · rw [if_neg hU]
          exact ih s c hxL

theorem batch_go_noUpdates (p : InventoryBatchUpdateRequest)
    (h : hasUpdates p.toInventoryUpdateRequest = false) (L : List String) :
    ∀ (s : List InventoryItem) (c : Nat), batch_go p L s c = (s, Except.ok c) := by
  have hst : p.toInventoryUpdateRequest.status = none := by
    cases hs : p.toInventoryUpdateRequest.status with
    | none => rfl
    | some st => simp [hasUpdates, hs] at h
  induction L with
  | nil => intro s c; rfl
  | cons i L ih =>
    intro s c
    unfold batch_go
    cases hf : findItem i s with
    | none => exact ih s c
    | some item =>
      dsimp only
      rw [buildUpdates_status_none hst]
      dsimp only
      rw [if_neg (by rw [h]; exact Bool.false_ne_true)]
      exact ih s c

theorem batch_go_ok_of_statusOk (p : InventoryBatchUpdateRequest)
    (h : statusOk p.toInventoryUpdateRequest = true) (L : List String) :
    ∀ (s : List InventoryItem) (c : Nat),
      ∃ s2 c2, batch_go p L s c = (s2, Except.ok c2) := by
  induction L with
  | nil => intro s c; exact ⟨s, c, rfl⟩
  | cons i L ih =>
    intro s c
    unfold batch_go
    cases hf : findItem i s with
    | none => exact ih s c
    | some item =>
      dsimp only
      rcases buildUpdates_isOk_of_statusOk h item with ⟨u, hu⟩
      rw [hu]
      dsimp only
      by_cases hU : hasUpdates p.toInventoryUpdateRequest = true
      · rw [if_pos hU]
        exact ih _ _
      · rw [if_neg hU]
        exact ih s c

theorem batch_go_err_store (p : InventoryBatchUpdateRequest) (L : List String) :
    ∀ (s : List InventoryItem) (c : Nat) (s2 : List InventoryItem) (e : ApiError),
      batch_go p L s c = (s2, Except.error e) → s2 = s := by
  induction L with
  | nil =>
    intro s c s2 e h
    cases h
  | cons i L ih =>
    intro s c s2 e h
    unfold batch_go at h
    cases hf : findItem i s with
    | none =>
      rw [hf] at h
      exact ih s c s2 e h
    | some item =>
      rw [hf] at h
      dsimp only at h
      cases hb : buildUpdates p.toInventoryUpdateRequest item with
      | error e2 =>
        rw [hb] at h
        dsimp only at h
        cases h
        rfl
      | ok u =>
        rw [hb] at h
        dsimp only at h
        by_cases hU : hasUpdates p.toInventoryUpdateRequest = true
        · rw [if_pos hU] at h
          rcases batch_go_ok_of_statusOk p (statusOk_of_buildUpdates_ok hb) L
            (dbUpdateItem i u s) (c + 1) with ⟨s4, c4, hok2⟩
          rw [hok2] at h
          cases h
        · rw [if_neg hU] at h
          rcases batch_go_ok_of_statusOk p (statusOk_of_buildUpdates_ok hb) L s c with
            ⟨s4, c4, hok2⟩
          rw [hok2] at h
          cases h

theorem batch_go_count (p : InventoryBatchUpdateRequest) (L : List String) :
    ∀ (s : List InventoryItem) (c : Nat) (s2 : List InventoryItem) (c2 : Nat),
      batch_go p L s c = (s2, Except.ok c2) → c ≤ c2 ∧ (c2 = c → s2 = s) := by
  induction L with
  | nil =>
    intro s c s2 c2 h
    cases h
    exact ⟨Nat.le_refl c, fun _ => rfl⟩
  | cons i L ih =>
    intro s c s2 c2 h
    unfold batch_go at h
    cases hf : findItem i s with
    | none =>
      rw [hf] at h
      exact ih s c s2 c2 h
    | some item =>
      rw [hf] at h
      dsimp only at h
      cases hb : buildUpdates p.toInventoryUpdateRequest item with
      | error e2 =>
        rw [hb] at h
        dsimp only at h
        cases h
      | ok u =>
        rw [hb] at h
        dsimp only at h
        by_cases hU : hasUpdates p.toInventoryUpdateRequest = true
        · rw [if_pos hU] at h
          rcases ih _ _ _ _ h with ⟨hle, _⟩
          constructor
          · exact Nat.le_of_succ_le hle
          · intro hc
            exfalso
            rw [hc] at hle
            exact Nat.not_succ_le_self c hle
        · rw [if_neg hU] at h
          exact ih s c s2 c2 h

theorem batch_go_count_zero (p : InventoryBatchUpdateRequest)
    (hU : hasUpdates p.toInventoryUpdateRequest = true) (L : List String) :
    ∀ (s : List InventoryItem) (c : Nat) (s2 : List InventoryItem) (c2 : Nat),
      batch_go p L s c = (s2, Except.ok c2) →
      (c2 = c ↔ ∀ i ∈ L, findItem i s = none) := by
  induction L with
  | nil =>
    intro s c s2 c2 h
    cases h
    simp
  | cons i L ih =>
    intro s c s2 c2 h
    unfold batch_go at h
    cases hf : findItem i s with
    | none =>
      rw [hf] at h
      rw [ih s c s2 c2 h]
      constructor
      · intro hall j hj
        rcases List.mem_cons.1 hj with rfl | hj2
        · exact hf
        · exact hall j hj2
      · intro hall j hj
        exact hall j (List.mem_cons_of_mem i hj)
    | some item =>
      rw [hf] at h
      dsimp only at h
      cases hb : buildUpdates p.toInventoryUpdateRequest item with
      | error e2 =>
        rw [hb] at h
        dsimp only at h
        cases h
      | ok u =>
        rw [hb] at h
        dsimp only at h
        rw [if_pos hU] at h
        rcases batch_go_count p L _ _ _ _ h with ⟨hle, _⟩
        constructor
        · intro hc
          exfalso
          rw [hc] at hle
          exact Nat.not_succ_le_self c hle
        · intro hall
          exfalso
          rw [hall i (List.mem_cons_self i L)] at hf
          cases hf

theorem batch_go_find (p : InventoryBatchUpdateRequest)
    (hU : hasUpdates p.toInventoryUpdateRequest = true)
    (hok : statusOk p.toInventoryUpdateRequest = true) {x : String} (L : List String) :
    ∀ (s : List InventoryItem) (c : Nat), L.Nodup → x ∈ L →
      ∀ it, findItem x s = some it →
      ∃ u, buildUpdates p.toInventoryUpdateRequest it = Except.ok u ∧
        findItem x (batch_go p L s c).1 = some (applyDbUpdate u it) := by
  induction L with
  | nil =>
    intro s c _ hx
    exact absurd hx (List.not_mem_nil x)
  | cons i L ih =>
    intro s c hnd hx it hfind
    have hndL : L.Nodup := (List.nodup_cons.1 hnd).2
    have hiL : i ∉ L := (List.nodup_cons.1 hnd).1
    unfold batch_go
    by_cases hxi : x = i
    · subst hxi
      rw [hfind]
      dsimp only
      rcases buildUpdates_isOk_of_statusOk hok it with ⟨u, hu⟩
      rw [hu]
      dsimp only
      rw [if_pos hU]
      refine ⟨u, rfl, ?_⟩
      rw [batch_go_frame p L _ _ hiL]
      exact findItem_dbUpdateItem_self hfind u
    · have hxL : x ∈ L := (List.mem_cons.1 hx).resolve_left hxi
      cases hf : findItem i s with
      | none => exact ih s c hndL hxL it hfind
      | some item2 =>
        dsimp only
        rcases buildUpdates_isOk_of_statusOk hok item2 with ⟨u2, hu2⟩
        rw [hu2]
        dsimp only
        rw [if_pos hU]
        apply ih _ _ hndL hxL it
        rw [findItem_dbUpdateItem_ne hxi u2 s]
        exact hfind

theorem batch_update_fst (p : InventoryBatchUpdateRequest) (s : List InventoryItem) :
    (batch_update_inventory p s).1 =
      if p.item_ids.dedup = [] then s else (batch_go p p.item_ids.dedup s 0).1 := by
  unfold batch_update_inventory
  dsimp only
  by_cases ht : p.item_ids.dedup = []
  · rw [if_pos ht, if_pos ht]
  · rw [if_neg ht, if_neg ht]
    cases hg : batch_go p p.item_ids.dedup s 0 with
    | mk s3 r =>
      cases r with
      | error e => rfl
      | ok c =>
        dsimp only
        split <;> rfl

theorem batch_update_err_store {p : InventoryBatchUpdateRequest} {s s2 : List InventoryItem}
    {e : ApiError} (h : batch_update_inventory p s = (s2, Except.error e)) : s2 = s := by
  have hfst : (batch_update_inventory p s).1 = s2 := by rw [h]
  rw [batch_update_fst] at hfst
  by_cases ht : p.item_ids.dedup = []
  · rw [if_pos ht] at hfst
    exact hfst.symm
  · rw [if_neg ht] at hfst
    unfold batch_update_inventory at h
    dsimp only at h
    rw [if_neg ht] at h
    cases hg : batch_go p p.item_ids.dedup s 0 with
    | mk s3 r =>
      rw [hg] at h hfst
      cases r with
      | error e2 =>
        exact hfst ▸ (batch_go_err_store p _ _ _ _ _ hg)
      | ok c =>
        dsimp only at h hfst
        by_cases hc : c = 0
        · subst hfst
          exact (batch_go_count p _ _ _ _ _ hg).2 hc
        · rw [if_neg hc] at h
          cases h

theorem StoreInv_batch_go (p : InventoryBatchUpdateRequest) (L : List String) :
    ∀ (s : List InventoryItem) (c : Nat), StoreInv s → StoreInv (batch_go p L s c).1 := by
  induction L with
  | nil => exact fun s c h => h
  | cons i L ih =>
    intro s c h
    unfold batch_go
    cases hf : findItem i s with
    | none => exact ih s c h
    | some item =>
      dsimp only
      cases hb : buildUpdates p.toInventoryUpdateRequest item with
      | error e => exact h
      | ok u =>
        dsimp only
        by_cases hU : hasUpdates p.toInventoryUpdateRequest = true
        · rw [if_pos hU]
          refine ih _ _ (StoreInv_dbUpdateItem h (buildUpdates_safe hb).1 ?_ i)
          exact Or.inl ⟨(buildUpdates_safe hb).2.1, (buildUpdates_safe hb).2.2⟩
        · rw [if_neg hU]
          exact ih s c h

theorem StoreInv_batch_update {p : InventoryBatchUpdateRequest} {s : List InventoryItem}
    (h : StoreInv s) : StoreInv (batch_update_inventory p s).1 := by
  rw [batch_update_fst]
  by_cases ht : p.item_ids.dedup = []
  · rw [if_pos ht]
    exact h
  · rw [if_neg ht]
    exact StoreInv_batch_go p _ s 0 h

theorem update_endpoint_err_store {i : String} {p : InventoryUpdateRequest}
    {s s2 : List InventoryItem} {e : ApiError}
    (h : update_inventory_item_endpoint i p s = (s2, Except.error e)) : s2 = s := by
  unfold update_inventory_item_endpoint at h
  cases hf : findItem i s with
  | none =>
    rw [hf] at h
    cases h
    rfl
  | some item =>
    rw [hf] at h
    dsimp only at h
    cases hb : buildUpdates p item with
    | error e2 =>
      rw [hb] at h
      dsimp only at h
      cases h
      rfl
    | ok u =>
      rw [hb] at h
      dsimp only at h
      simp at h

theorem StoreInv_update_endpoint {i : String} {p : InventoryUpdateRequest}
    {s : List InventoryItem} (h : StoreInv s) :
    StoreInv (update_inventory_item_endpoint i p s).1 := by
  unfold update_inventory_item_endpoint
  cases hf : findItem i s with
  | none => exact h
  | some item =>
    dsimp only
    cases hb : buildUpdates p item with
    | error e => exact h
    | ok u =>
      dsimp only
      by_cases hU : hasUpdates p = true
      · rw [if_pos hU]
        refine StoreInv_dbUpdateItem h (buildUpdates_safe hb).1 ?_ i
        exact Or.inl ⟨(buildUpdates_safe hb).2.1, (buildUpdates_safe hb).2.2⟩
      · rw [if_neg hU]
        exact h

theorem upload_go_append (ids : Nat → String) (times : Nat → ℚ)
    (entries : List UploadEntry) :
    ∀ (k : Nat) (s : List InventoryItem),
      ∃ new, (upload_go ids times k entries s).1 = s ++ new := by
  induction entries with
  | nil =>
    intro k s
    exact ⟨[], (List.append_nil s).symm⟩
  | cons e rest ih =>
    intro k s
    unfold upload_go
    by_cases h1 : pyStrip e.image_base64 = ""
    · rw [if_pos h1]
      exact ⟨[], (List.append_nil s).symm⟩
    · rw [if_neg h1]
      cases h2 : b64decode e.image_base64 with
      | none => exact ⟨[], (List.append_nil s).symm⟩
      | some bs =>
        dsimp only
        cases h3 : ensure_valid_status e.status with
        | error err => exact ⟨[], (List.append_nil s).symm⟩
        | ok st =>
          dsimp only
          rcases ih (k + 1) (s ++ [mkUploadItem ids times k e st]) with ⟨new2, hnew⟩
          refine ⟨mkUploadItem ids times k e st :: new2, ?_⟩
          rw [hnew, List.append_assoc]
          rfl

theorem StoreInv_upload_go (ids : Nat → String) (times : Nat → ℚ)
    (entries : List UploadEntry) :
    ∀ (k : Nat) (s : List InventoryItem), StoreInv s →
      StoreInv (upload_go ids times k entries s).1 := by
  induction entries with
  | nil => exact fun k s h => h
  | cons e rest ih =>
    intro k s h
    unfold upload_go
    by_cases h1 : pyStrip e.image_base64 = ""
    · rw [if_pos h1]
      exact h
    · rw [if_neg h1]
      cases h2 : b64decode e.image_base64 with
      | none => exact h
      | some bs =>
        dsimp only
        cases h3 : ensure_valid_status e.status with
        | error err => exact h
        | ok st =>
          dsimp only
          apply ih
          intro it hit
          rcases List.mem_append.1 hit with hit | hit
          · exact h it hit
          · rcases List.mem_singleton.1 hit with rfl
            refine ⟨ensure_valid_status_ok h3, ?_⟩
            simp [mkUploadItem]

theorem upload_fst (ids : Nat → String) (times : Nat → ℚ) (entries : List UploadEntry)
    (s : List InventoryItem) :
    (upload_inventory ids times entries s).1 = (upload_go ids times 0 entries s).1 := by
  unfold upload_inventory
  cases hg : upload_go ids times 0 entries s with
  | mk s2 oe => cases oe <;> rfl

theorem StoreInv_upload {ids : Nat → String} {times : Nat → ℚ} {entries : List UploadEntry}
    {s : List InventoryItem} (h : StoreInv s) :
    StoreInv (upload_inventory ids times entries s).1 := by
  rw [upload_fst]
  exact StoreInv_upload_go ids times entries 0 s h

theorem scoreOf_nonneg (z0 z1 : ℝ) : 0 ≤ scoreOf z0 z1 := by
  unfold scoreOf softmax2
  have h0 := Real.exp_pos z0
  have h1 := Real.exp_pos z1
  positivity

theorem scoreOf_le_one (z0 z1 : ℝ) : scoreOf z0 z1 ≤ 1 := by
  unfold scoreOf softmax2
  have h0 := Real.exp_pos z0
  have h1 := Real.exp_pos z1
  rw [div_le_one (by positivity)]
  linarith

theorem labelOf_binary (z0 z1 : ℝ) : labelOf z0 z1 = 0 ∨ labelOf z0 z1 = 1 := by
  unfold labelOf
  split
  · right
    rfl
  · left
    rfl

theorem ensure_valid_status_ok_val {v c : String}
    (h : ensure_valid_status (some v) = Except.ok c) :
    c = if pyStrip v = "" then "awaiting_review" else pyStrip v := by
  unfold ensure_valid_status at h
  dsimp only at h
  rw [Option.getD_some] at h
  by_cases he : pyStrip v = ""
  · rw [if_pos he, if_pos (show "awaiting_review" ∈ ALLOWED_STATUSES by decide)] at h
    simp only [Except.ok.injEq] at h
    rw [if_pos he, ← h]
  · rw [if_neg he] at h
    by_cases hm : pyStrip v ∈ ALLOWED_STATUSES
    · rw [if_pos hm] at h
      simp only [Except.ok.injEq] at h
      rw [if_neg he, ← h]
    · rw [if_neg hm] at h
      cases h

theorem update_endpoint_ok_shape {i : String} {p : InventoryUpdateRequest}
    {s : List InventoryItem} {item : InventoryItem} {u : DbUpdate}
    (hf : findItem i s = some item) (hb : buildUpdates p item = Except.ok u) :
    update_inventory_item_endpoint i p s =
      (if hasUpdates p = true then dbUpdateItem i u s else s,
        Except.ok (if hasUpdates p = true then some (applyDbUpdate u item) else some item)) := by
  unfold update_inventory_item_endpoint
  rw [hf]
  dsimp only
  rw [hb]
  dsimp only
  by_cases hU : hasUpdates p = true
  · simp only [hU, if_true]
    rw [findItem_dbUpdateItem_self hf u]
  · simp [hU, hf]

/-- C1: in the insight heuristic, recommended_status and priority are determined
by the stored score with closed lower bounds: an absent score yields
awaiting_review/low with no confidence; score >= 0.85 (boundary included)
yields needs_attention/critical; 0.65 <= score < 0.85 yields
needs_attention/high; 0.45 <= score < 0.65 yields in_review/elevated;
score < 0.45 yields cleared/low; and confidence is the score rounded to three
decimals whenever the score is present. The thresholds 0.85, 0.65, 0.45 are
the rationals written mkRat here. -/
theorem claim_C1_insight_thresholds (item : InventoryItem) :
    (item.score = none →
      (build_ai_insight item).recommended_status = "awaiting_review" ∧
      (build_ai_insight item).priority = "low" ∧
      (build_ai_insight item).confidence = none) ∧
    (∀ s : ℚ, item.score = some s →
      (build_ai_insight item).confidence = some (round3 s) ∧
      (mkRat 85 100 ≤ s →
        (build_ai_insight item).recommended_status = "needs_attention" ∧
        (build_ai_insight item).priority = "critical") ∧
      (mkRat 65 100 ≤ s → s < mkRat 85 100 →
        (build_ai_insight item).recommended_status = "needs_attention" ∧
        (build_ai_insight item).priority = "high") ∧
      (mkRat 45 100 ≤ s → s < mkRat 65 100 →
        (build_ai_insight item).recommended_status = "in_review" ∧
        (build_ai_insight item).priority = "elevated") ∧
      (s < mkRat 45 100 →
        (build_ai_insight item).recommended_status = "cleared" ∧
        (build_ai_insight item).priority = "low")) := by
  constructor
  · intro h
    simp [build_ai_insight, h]
  · intro s hs
    refine ⟨?_, ?_, ?_, ?_, ?_⟩
    · simp [build_ai_insight, hs]
    · intro h85
      simp [build_ai_insight, hs, h85]
    · intro h65 hlt
      have h85 : ¬ (mkRat 85 100 ≤ s) := not_le.2 hlt
      simp [build_ai_insight, hs, h65, h85]
    · intro h45 hlt
      have h65 : ¬ (mkRat 65 100 ≤ s) := not_le.2 hlt
      have h85 : ¬ (mkRat 85 100 ≤ s) := fun hc =>
        h65 (le_trans (by decide : mkRat 65 100 ≤ mkRat 85 100) hc)
      simp [build_ai_insight, hs, h45, h65, h85]
    · intro hlt
      have h45 : ¬ (mkRat 45 100 ≤ s) := not_le.2 hlt
      have h65 : ¬ (mkRat 65 100 ≤ s) := fun hc =>
        h45 (le_trans (by decide : mkRat 45 100 ≤ mkRat 65 100) hc)
      have h85 : ¬ (mkRat 85 100 ≤ s) := fun hc =>
        h45 (le_trans (by decide : mkRat 45 100 ≤ mkRat 85 100) hc)
      simp [build_ai_insight, hs, h45, h65, h85]

/-- C1 witness: a record whose score is exactly 0.85 is mapped to
needs_attention/critical with confidence 0.85. -/
theorem claim_C1_insight_thresholds_witness :
    (build_ai_insight itemW1).recommended_status = "needs_attention" ∧
    (build_ai_insight itemW1).priority = "critical" ∧
    (build_ai_insight itemW1).confidence = some (round3 (mkRat 85 100)) := by
  have h := (claim_C1_insight_thresholds itemW1).2 (mkRat 85 100) rfl
  exact ⟨(h.2.1 (le_refl _)).1, (h.2.1 (le_refl _)).2, h.1⟩

/-- C2 counterexample: the record itemC2 has owner Alice, yet with score 0.9
the insight heuristic returns owner_hint Reliability, overriding the set
owner — refuting the claim that a set owner is never overridden by the
score-band owner hints. -/
theorem claim_C2_counterexample :
    itemC2.owner = "Alice" ∧ (build_ai_insight itemC2).owner_hint = "Reliability" := by
  constructor
  · rfl
  · decide

/-- C2 amended: the owner hint equals the record's own owner only in the bands
with score absent, score < 0.45, and 0.45 <= score < 0.65; in the bands
score >= 0.85 and 0.65 <= score < 0.85 the heuristic returns Reliability and
Maintenance unconditionally, overriding even a set owner; and for an unset
owner the 0.45 <= score < 0.65 band is never left unset: it falls back to
Maintenance when score >= 0.6 and to Quality otherwise (Quality also when the
score is absent or below 0.45). -/
theorem claim_C2_owner_hint (item : InventoryItem) :
    (item.score = none →
      (build_ai_insight item).owner_hint =
        (if item.owner ≠ "" then item.owner else "Quality")) ∧
    (∀ s : ℚ, item.score = some s →
      (mkRat 85 100 ≤ s → (build_ai_insight item).owner_hint = "Reliability") ∧
      (mkRat 65 100 ≤ s → s < mkRat 85 100 →
        (build_ai_insight item).owner_hint = "Maintenance") ∧
      (mkRat 45 100 ≤ s → s < mkRat 65 100 →
        (build_ai_insight item).owner_hint =
          (if item.owner ≠ "" then item.owner
           else if mkRat 6 10 ≤ s then "Maintenance" else "Quality")) ∧
      (s < mkRat 45 100 →
        (build_ai_insight item).owner_hint =
          (if item.owner ≠ "" then item.owner else "Quality"))) := by
  constructor
  · intro h
    by_cases ho : item.owner = ""
    · simp [build_ai_insight, h, ho, show ¬ (mkRat 6 10 ≤ (0 : ℚ)) by decide]
    · simp [build_ai_insight, h, ho]
  · intro s hs
    refine ⟨?_, ?_, ?_, ?_⟩
    · intro h85
      simp [build_ai_insight, hs, h85]
    · intro h65 hlt
      have h85 : ¬ (mkRat 85 100 ≤ s) := not_le.2 hlt
      simp [build_ai_insight, hs, h65, h85]
    · intro h45 hlt
      have h65 : ¬ (mkRat 65 100 ≤ s) := not_le.2 hlt
      have h85 : ¬ (mkRat 85 100 ≤ s) := fun hc =>
        h65 (le_trans (by decide : mkRat 65 100 ≤ mkRat 85 100) hc)
      by_cases ho : item.owner = ""
      · simp [build_ai_insight, hs, h45, h65, h85, ho]
      · simp [build_ai_insight, hs, h45, h65, h85, ho]
    · intro hlt
      have h45 : ¬ (mkRat 45 100 ≤ s) := not_le.2 hlt
      have h65 : ¬ (mkRat 65 100 ≤ s) := fun hc =>
        h45 (le_trans (by decide : mkRat 45 100 ≤ mkRat 65 100) hc)
      have h85 : ¬ (mkRat 85 100 ≤ s) := fun hc =>
        h45 (le_trans (by decide : mkRat 45 100 ≤ mkRat 85 100) hc)
      by_cases ho : item.owner = ""
      · simp [build_ai_insight, hs, h45, h65, h85, ho]
      · simp [build_ai_insight, hs, h45, h65, h85, ho]

/-- C2 witness: a record with no owner and score 0.5 (inside the 0.45-0.65
band, below the 0.6 fallback threshold) receives owner hint Quality. -/
theorem claim_C2_owner_hint_witness :
    (build_ai_insight itemW2).owner_hint =
      (if itemW2.owner ≠ "" then itemW2.owner
       else if mkRat 6 10 ≤ mkRat 1 2 then "Maintenance" else "Quality") := by
  have h := (claim_C2_owner_hint itemW2).2 (mkRat 1 2) rfl
  exact h.2.2.1 (by decide) (by decide)

/-- C3: the classification score is the softmax probability of the defect
class, which lies in [0,1]; the label is the argmax of the two probabilities,
hence 0 or 1; and for a stored record whose image file exists and whose
forward pass yields (sc, lb), the batch-classify endpoint stores score and
label together and overwrites the prior status with needs_attention exactly
when the label is 1, cleared otherwise. -/
theorem claim_C3_classification :
    (∀ z0 z1 : ℝ, 0 ≤ scoreOf z0 z1 ∧ scoreOf z0 z1 ≤ 1 ∧
      (labelOf z0 z1 = 0 ∨ labelOf z0 z1 = 1)) ∧
    (∀ (imageExists : String → Bool) (infer : String → InferOutcome)
      (s : List InventoryItem), (s.map InventoryItem.id).Nodup →
      ∀ it ∈ s, ∀ (sc : ℚ) (lb : ℤ),
        imageExists (imageFileOf it.image_path) = true →
        infer (imageFileOf it.image_path) = InferOutcome.ok sc lb →
        findItem it.id (classify_inventory imageExists infer s) =
          some { it with
                 score := some sc
                 label := some lb
                 status := if lb = 1 then "needs_attention" else "cleared" } ∧
        ((if lb = 1 then "needs_attention" else "cleared") = "needs_attention" ↔ lb = 1)) := by
  constructor
  · intro z0 z1
    exact ⟨scoreOf_nonneg z0 z1, scoreOf_le_one z0 z1, labelOf_binary z0 z1⟩
  · intro imageExists infer s hnd it hm sc lb hex hinf
    constructor
    · rw [classify_find imageExists infer hnd hm]
      unfold classifyUpdate
      rw [if_neg (by rw [hex]; simp), hinf]
      rfl
    · by_cases hlb : lb = 1 <;> simp [hlb]

/-- C3 witness: classifying the singleton store holding itemW3 under an oracle
whose forward pass returns score 0.5 and label 1 stores both fields and sets
the status to needs_attention. -/
theorem claim_C3_classification_witness :
    findItem "w3" (classify_inventory allImages inferConst [itemW3]) =
      some { itemW3 with
             score := some (mkRat 1 2)
             label := some 1
             status := if (1 : ℤ) = 1 then "needs_attention" else "cleared" } := by
  have h := claim_C3_classification.2 allImages inferConst [itemW3] (by decide)
    itemW3 (by decide) (mkRat 1 2) 1 rfl rfl
  exact h.1

/-- C4 counterexample: batch classification on a record with pre-existing
notes "prior note" and a missing image replaces the notes field with the
Missing-image diagnostic; the prior notes are not preserved, refuting the
claim that the diagnostic is appended to the notes. -/
theorem claim_C4_counterexample :
    findItem "c4" (classify_inventory noImage inferBoom [itemC4]) =
      some { itemC4 with notes := "Missing image: inventory/images/c4.png" } ∧
    itemC4.notes = "prior note" ∧
    "Missing image: inventory/images/c4.png" ≠
      "prior note" ++ "\n" ++ "Missing image: inventory/images/c4.png" := by
  refine ⟨by decide, rfl, by decide⟩

/-- C4 amended: during batch classification, a record whose stored image file
is missing keeps its score and label untouched and has its notes field
replaced (not appended) by a diagnostic beginning with "Missing image: "; a
per-item inference exception is likewise caught and recorded by replacing the
notes with a "Classification error: " diagnostic; in both cases the loop
continues and the endpoint returns the final listing (the operation is total,
so the batch as a whole succeeds). -/
theorem claim_C4_missing_image (imageExists : String → Bool)
    (infer : String → InferOutcome) (s : List InventoryItem)
    (hnd : (s.map InventoryItem.id).Nodup) (it : InventoryItem) (hm : it ∈ s) :
    (imageExists (imageFileOf it.image_path) = false →
      findItem it.id (classify_inventory imageExists infer s) =
        some { it with notes := "Missing image: " ++ imageFileOf it.image_path }) ∧
    (∀ m, imageExists (imageFileOf it.image_path) = true →
      infer (imageFileOf it.image_path) = InferOutcome.exc m →
      findItem it.id (classify_inventory imageExists infer s) =
        some { it with notes := "Classification error: " ++ m }) := by
  constructor
  · intro hex
    rw [classify_find imageExists infer hnd hm]
    unfold classifyUpdate
    rw [if_pos hex]
    rfl
  · intro m hex hinf
    rw [classify_find imageExists infer hnd hm]
    unfold classifyUpdate
    rw [if_neg (by rw [hex]; simp), hinf]
    rfl

/-- C4 witness: the record itemW3, classified with its image file missing,
ends with the Missing-image diagnostic as its notes and untouched score and
label. -/
theorem claim_C4_missing_image_witness :
    findItem "w3" (classify_inventory noImage inferBoom [itemW3]) =
      some { itemW3 with notes := "Missing image: " ++ imageFileOf itemW3.image_path } := by
  have h := claim_C4_missing_image noImage inferBoom [itemW3] (by decide) itemW3 (by decide)
  exact h.1 rfl

theorem hasUpdates_false_fields {p : InventoryUpdateRequest} (h : hasUpdates p = false) :
    p.name = none ∧ p.status = none ∧ p.owner = none ∧ p.notes = none := by
  refine ⟨?_, ?_, ?_, ?_⟩
  · cases hn : p.name with
    | none => rfl
    | some v => simp [hasUpdates, hn] at h
  · cases hn : p.status with
    | none => rfl
    | some v => simp [hasUpdates, hn] at h
  · cases hn : p.owner with
    | none => rfl
    | some v => simp [hasUpdates, hn] at h
  · cases hn : p.notes with
    | none => rfl
    | some v => simp [hasUpdates, hn] at h

theorem buildUpdates_ok_fields {p : InventoryUpdateRequest} {item : InventoryItem}
    {u : DbUpdate} (h : buildUpdates p item = Except.ok u) :
    u.name = p.name.map (fun n => if pyStrip n = "" then item.name else pyStrip n) ∧
    u.owner = p.owner.map pyStrip ∧
    u.notes = p.notes.map (fun n =>
      if p.append_notes ∧ item.notes ≠ "" then item.notes ++ "\n" ++ pyStrip n
      else pyStrip n) ∧
    u.status = p.status.map (fun st =>
      if pyStrip (pyStrip st) = "" then "awaiting_review" else pyStrip (pyStrip st)) ∧
    u.score = none ∧ u.label = none := by
  cases hst : p.status with
  | none =>
    rw [buildUpdates_status_none hst] at h
    cases h
    exact ⟨rfl, rfl, rfl, rfl, rfl, rfl⟩
  | some st =>
    cases hc : ensure_valid_status (some (pyStrip st)) with
    | error e =>
      rw [buildUpdates_status_some_err hst hc] at h
      cases h
    | ok c =>
      rw [buildUpdates_status_some_ok hst hc] at h
      cases h
      have hcv := ensure_valid_status_ok_val hc
      refine ⟨rfl, rfl, rfl, ?_, rfl, rfl⟩
      simp [hcv]

/-- C5 counterexample: uploading the batch [valid entry, entry with empty
image payload] into the empty store signals ValidationError, yet the record
for the first entry has already been created — refuting the claim that every
ValidationError aborts before any mutation. -/
theorem claim_C5_counterexample :
    (upload_inventory ids0 times0 [entryGood, entryBad] []).2 =
      Except.error { code := 400, detail := "Each item must include image_base64 data." } ∧
    (upload_inventory ids0 times0 [entryGood, entryBad] []).1 =
      [mkUploadItem ids0 times0 0 entryGood "awaiting_review"] := by
  constructor
  · rfl
  · rfl

/-- C5 amended: on any signalled error, PartialUpdate and BatchUpdate leave
every stored record unchanged (they mutate nothing before the error); Upload
validates each entry immediately before persisting it, so it never modifies a
pre-existing record, but the records created for entries processed before the
failing entry of a batch remain persisted. -/
theorem claim_C5_abort_semantics :
    (∀ (i : String) (p : InventoryUpdateRequest) (s : List InventoryItem) (e : ApiError),
      (update_inventory_item_endpoint i p s).2 = Except.error e →
      (update_inventory_item_endpoint i p s).1 = s) ∧
    (∀ (p : InventoryBatchUpdateRequest) (s : List InventoryItem) (e : ApiError),
      (batch_update_inventory p s).2 = Except.error e →
      (batch_update_inventory p s).1 = s) ∧
    (∀ (ids : Nat → String) (times : Nat → ℚ) (entries : List UploadEntry)
      (s : List InventoryItem),
      ∃ new, (upload_inventory ids times entries s).1 = s ++ new) := by
  refine ⟨?_, ?_, ?_⟩
  · intro i p s e h
    cases hr : update_inventory_item_endpoint i p s with
    | mk a b =>
      rw [hr] at h
      dsimp only at h
      subst h
      exact update_endpoint_err_store hr
  · intro p s e h
    cases hr : batch_update_inventory p s with
    | mk a b =>
      rw [hr] at h
      dsimp only at h
      subst h
      exact batch_update_err_store hr
  · intro ids times entries s
    rw [upload_fst]
    exact upload_go_append ids times entries 0 s

/-- C5 witness: a partial update of an id absent from the empty store signals
NotFoundError and leaves the store empty. -/
theorem claim_C5_abort_semantics_witness :
    (update_inventory_item_endpoint "missing" reqC6 []).1 = [] :=
  claim_C5_abort_semantics.1 "missing" reqC6 []
    { code := 404, detail := "Inventory item not found" } rfl

/-- C6 counterexample: a whitespace-only status trims to the empty string,
which is not in the fixed status set, yet PartialUpdate signals no
ValidationError: it silently resets the status to awaiting_review — refuting
the claim that a supplied status must, after trimming, be a member of the
fixed set or else ValidationError is signalled. -/
theorem claim_C6_counterexample :
    pyStrip "   " = "" ∧ "" ∉ ALLOWED_STATUSES ∧
    update_inventory_item_endpoint "c6" reqC6 [itemC6] =
      ([{ itemC6 with status := "awaiting_review" }],
        Except.ok (some { itemC6 with status := "awaiting_review" })) := by
  refine ⟨rfl, by decide, rfl⟩

/-- C6 amended: PartialUpdate on an existing record trims name and owner;
a name empty after trim keeps the prior name while an empty owner is accepted
and clears the owner; a supplied status that is non-empty after the
validator's trimming and not in the fixed set signals ValidationError with
the store unchanged, but a status that trims to empty is silently replaced by
awaiting_review; supplied notes replace the existing notes except that with
the append flag set and non-empty existing notes the trimmed new text is
appended on a new line; score and label are never touched; and an id that
does not exist signals NotFoundError. -/
theorem claim_C6_partial_update (item_id : String) (p : InventoryUpdateRequest)
    (s : List InventoryItem) :
    (findItem item_id s = none →
      update_inventory_item_endpoint item_id p s =
        (s, Except.error { code := 404, detail := "Inventory item not found" })) ∧
    (∀ item, findItem item_id s = some item →
      (∀ st, p.status = some st → pyStrip (pyStrip st) ≠ "" →
        pyStrip (pyStrip st) ∉ ALLOWED_STATUSES →
        update_inventory_item_endpoint item_id p s =
          (s, Except.error { code := 400, detail := "Status is not allowed." })) ∧
      (statusOk p = true →
        ∃ it2, (update_inventory_item_endpoint item_id p s).2 = Except.ok (some it2) ∧
          it2.name = (match p.name with
            | none => item.name
            | some n => if pyStrip n = "" then item.name else pyStrip n) ∧
          it2.owner = (match p.owner with
            | none => item.owner
            | some o => pyStrip o) ∧
          it2.status = (match p.status with
            | none => item.status
            | some st => if pyStrip (pyStrip st) = "" then "awaiting_review"
                else pyStrip (pyStrip st)) ∧
          it2.notes = (match p.notes with
            | none => item.notes
            | some n => if p.append_notes ∧ item.notes ≠ "" then
                  item.notes ++ "\n" ++ pyStrip n
                else pyStrip n) ∧
          it2.score = item.score ∧ it2.label = item.label)) := by
  constructor
  · intro h
    unfold update_inventory_item_endpoint
    rw [h]
  · intro item hf
    constructor
    · intro st hst hne hmem
      have herr : ensure_valid_status (some (pyStrip st)) =
          Except.error { code := 400, detail := "Status is not allowed." } :=
        ensure_valid_status_err hne hmem
      unfold update_inventory_item_endpoint
      rw [hf]
      dsimp only
      rw [buildUpdates_status_some_err hst herr]
    · intro hok
      rcases buildUpdates_isOk_of_statusOk hok item with ⟨u, hu⟩
      obtain ⟨hun, huo, hunotes, hust, husc, hul⟩ := buildUpdates_ok_fields hu
      rw [update_endpoint_ok_shape hf hu]
      by_cases hU : hasUpdates p = true
      · simp only [hU, if_true]
        refine ⟨applyDbUpdate u item, rfl, ?_, ?_, ?_, ?_, ?_, ?_⟩
        · cases hn : p.name with
          | none => simp [applyDbUpdate, hun, hn]
          | some n => simp [applyDbUpdate, hun, hn]
        · cases ho : p.owner with
          | none => simp [applyDbUpdate, huo, ho]
          | some o => simp [applyDbUpdate, huo, ho]
        · cases hstt : p.status with
          | none => simp [applyDbUpdate, hust, hstt]
          | some st => simp [applyDbUpdate, hust, hstt]
        · cases hnt : p.notes with
          | none => simp [applyDbUpdate, hunotes, hnt]
          | some n => simp [applyDbUpdate, hunotes, hnt]
        · simp [applyDbUpdate, husc]
        · simp [applyDbUpdate, hul]
      · obtain ⟨h1, h2, h3, h4⟩ := hasUpdates_false_fields (by simpa using hU)
        simp only [hU, if_false]
        refine ⟨item, by simp [hU], ?_, ?_, ?_, ?_, rfl, rfl⟩
        · rw [h1]
        · rw [h3]
        · rw [h2]
        · rw [h4]

/-- C6 witness: updating itemC6 with a payload carrying a padded name, the
status " cleared ", whitespace owner and fresh notes produces the merged
record with trimmed fields, cleared owner and untouched score and label. -/
theorem claim_C6_partial_update_witness :
    ∃ it2, (update_inventory_item_endpoint "c6" reqC6W [itemC6]).2 = Except.ok (some it2) ∧
      it2.name = (match reqC6W.name with
        | none => itemC6.name
        | some n => if pyStrip n = "" then itemC6.name else pyStrip n) ∧
      it2.owner = (match reqC6W.owner with
        | none => itemC6.owner
        | some o => pyStrip o) ∧
      it2.status = (match reqC6W.status with
        | none => itemC6.status
        | some st => if pyStrip (pyStrip st) = "" then "awaiting_review"
            else pyStrip (pyStrip st)) ∧
      it2.notes = (match reqC6W.notes with
        | none => itemC6.notes
        | some n => if reqC6W.append_notes ∧ itemC6.notes ≠ "" then
              itemC6.notes ++ "\n" ++ pyStrip n
            else pyStrip n) ∧
      it2.score = itemC6.score ∧ it2.label = itemC6.label :=
  ((claim_C6_partial_update "c6" reqC6W [itemC6]).2 itemC6 rfl).2 (by decide)

/-- C7 counterexample: BatchUpdate on the id set containing only the existing
id c7, with no update fields supplied, raises NotFoundError even though the
id matched a stored record — refuting the claim that NotFoundError is
signalled if and only if zero of the given ids matched an existing record. -/
theorem claim_C7_counterexample :
    findItem "c7" [itemC7] = some itemC7 ∧
    batch_update_inventory reqC7 [itemC7] =
      ([itemC7], Except.error { code := 404, detail := "No matching items found" }) := by
  exact ⟨rfl, rfl⟩

/-- C7 amended: assuming any supplied status is valid, BatchUpdate signals
NotFoundError exactly when no record received an effective update — that is,
when no update field was supplied or none of the given ids matched a stored
record; whenever it signals any error no record is mutated; on success it
returns the full updated listing; and when fields are supplied, every
existing id in the set receives exactly the PartialUpdate field merge
(buildUpdates followed by the per-row database update). -/
theorem claim_C7_batch_update (p : InventoryBatchUpdateRequest) (s : List InventoryItem)
    (hne : p.item_ids ≠ []) (hok : statusOk p.toInventoryUpdateRequest = true) :
    ((batch_update_inventory p s).2 =
        Except.error { code := 404, detail := "No matching items found" } ↔
      (hasUpdates p.toInventoryUpdateRequest = false ∨
        ∀ i ∈ p.item_ids, findItem i s = none)) ∧
    (∀ e, (batch_update_inventory p s).2 = Except.error e →
      (batch_update_inventory p s).1 = s) ∧
    (∀ l, (batch_update_inventory p s).2 = Except.ok l →
      l = (batch_update_inventory p s).1) ∧
    (hasUpdates p.toInventoryUpdateRequest = true →
      ∀ x ∈ p.item_ids, ∀ it, findItem x s = some it →
        ∃ u, buildUpdates p.toInventoryUpdateRequest it = Except.ok u ∧
          findItem x (batch_update_inventory p s).1 = some (applyDbUpdate u it)) := by
  have ht : p.item_ids.dedup ≠ [] := fun hnil => hne ((List.dedup_eq_nil p.item_ids).1 hnil)
  rcases batch_go_ok_of_statusOk p hok p.item_ids.dedup s 0 with ⟨s2, c2, hg⟩
  have hbu : batch_update_inventory p s =
      (s2, if c2 = 0 then Except.error { code := 404, detail := "No matching items found" }
        else Except.ok s2) := by
    unfold batch_update_inventory
    dsimp only
    rw [if_neg ht, hg]
    dsimp only
    by_cases hc : c2 = 0
    · rw [if_pos hc, if_pos hc]
    · rw [if_neg hc, if_neg hc]
  refine ⟨?_, ?_, ?_, ?_⟩
  · rw [hbu]
    dsimp only
    by_cases hc : c2 = 0
    · rw [if_pos hc]
      constructor
      · intro _
        by_cases hU : hasUpdates p.toInventoryUpdateRequest = true
        · right
          intro i hi
          exact (batch_go_count_zero p hU _ _ _ _ _ hg).1 hc i (List.mem_dedup.2 hi)
        · left
          simpa using hU
      · intro _
        rfl
    · rw [if_neg hc]
      constructor
      · intro h
        exact Except.noConfusion h
      · intro hrhs
        exfalso
        apply hc
        rcases hrhs with hU | hall
        · have hnu := batch_go_noUpdates p hU p.item_ids.dedup s 0
          rw [hnu] at hg
          cases hg
          rfl
        · by_cases hU : hasUpdates p.toInventoryUpdateRequest = true
          · exact (batch_go_count_zero p hU _ _ _ _ _ hg).2
              (fun i hi => hall i (List.mem_dedup.1 hi))
          · have hnu := batch_go_noUpdates p (by simpa using hU) p.item_ids.dedup s 0
            rw [hnu] at hg
            cases hg
            rfl
  · intro e h
    cases hr : batch_update_inventory p s with
    | mk a b =>
      rw [hr] at h
      dsimp only at h
      subst h
      exact batch_update_err_store hr
  · intro l h
    rw [hbu] at h ⊢
    dsimp only at h ⊢
    by_cases hc : c2 = 0
    · rw [if_pos hc] at h
      exact Except.noConfusion h
    · rw [if_neg hc] at h
      simp only [Except.ok.injEq] at h
      exact h.symm
  · intro hU x hx it hfind
    rcases batch_go_find p hU hok p.item_ids.dedup s 0 (List.nodup_dedup _)
      (List.mem_dedup.2 hx) it hfind with ⟨u, hu, hfin⟩
    refine ⟨u, hu, ?_⟩
    rw [batch_update_fst, if_neg ht]
    exact hfin

/-- C7 witness: a batch update of the existing id c7 that renames the record
does not signal NotFoundError, and the renamed record carries the merged
fields. -/
theorem claim_C7_batch_update_witness :
    ((batch_update_inventory reqC7W [itemC7]).2 =
        Except.error { code := 404, detail := "No matching items found" } ↔
      (hasUpdates reqC7W.toInventoryUpdateRequest = false ∨
        ∀ i ∈ reqC7W.item_ids, findItem i [itemC7] = none)) :=
  (claim_C7_batch_update reqC7W [itemC7] (by decide) (by decide)).1

/-- C8: every inventory operation preserves the store invariant: each stored
record's status is a member of the fixed status set, and its score and label
are either both present or both absent (upload creates records with both
absent, classification sets both, field updates touch neither). -/
theorem claim_C8_store_invariant :
    (∀ (ids : Nat → String) (times : Nat → ℚ) (entries : List UploadEntry)
      (s : List InventoryItem), StoreInv s →
      StoreInv (upload_inventory ids times entries s).1) ∧
    (∀ (imageExists : String → Bool) (infer : String → InferOutcome)
      (s : List InventoryItem), StoreInv s →
      StoreInv (classify_inventory imageExists infer s)) ∧
    (∀ (i : String) (p : InventoryUpdateRequest) (s : List InventoryItem), StoreInv s →
      StoreInv (update_inventory_item_endpoint i p s).1) ∧
    (∀ (p : InventoryBatchUpdateRequest) (s : List InventoryItem), StoreInv s →
      StoreInv (batch_update_inventory p s).1) :=
  ⟨fun _ _ _ _ h => StoreInv_upload h,
   fun _ _ _ h => StoreInv_classify _ _ h,
   fun _ _ _ h => StoreInv_update_endpoint h,
   fun _ _ h => StoreInv_batch_update h⟩

/-- C8 witness: classifying the singleton store holding itemC4 (status
awaiting_review, no score or label) with its image missing yields a store
still satisfying the invariant. -/
theorem claim_C8_store_invariant_witness :
    StoreInv (classify_inventory noImage inferBoom [itemC4]) :=
  claim_C8_store_invariant.2.1 noImage inferBoom [itemC4] (by decide)

/-- C9: PartialUpdate with every optional field absent is a no-op on an
existing record: no error is signalled, the store is unchanged, and the
returned record is the stored one, for either value of the append flag. -/
theorem claim_C9_noop_update (item_id : String) (s : List InventoryItem) (b : Bool)
    (item : InventoryItem) (h : findItem item_id s = some item) :
    update_inventory_item_endpoint item_id
      { name := none, status := none, notes := none, owner := none, append_notes := b } s =
      (s, Except.ok (some item)) := by
  unfold update_inventory_item_endpoint
  rw [h]
  dsimp only
  rw [buildUpdates_status_none rfl]
  dsimp only
  simp [hasUpdates, h]

/-- C9 witness: the empty partial update on the stored record itemC9 returns
the record unchanged with an unchanged store. -/
theorem claim_C9_noop_update_witness :
    update_inventory_item_endpoint "c9"
      { name := none, status := none, notes := none, owner := none, append_notes := false }
      [itemC9] = ([itemC9], Except.ok (some itemC9)) :=
  claim_C9_noop_update "c9" [itemC9] false itemC9 rfl

/-- C10: no inventory operation (upload, classify, partial update, batch
update, listing) ever writes the JSON inventory file; the health endpoint's
inventory_count is computed solely from that file, so it is invariant under
every sequence of inventory operations. -/
theorem claim_C10_health_frame :
    (∀ (w : World) (op : ApiOp), (runOp w op).jsonFile = w.jsonFile) ∧
    (∀ (ops : List ApiOp) (w : World),
      inventory_count (runOps w ops) = inventory_count w) := by
  have hjson : ∀ (w : World) (op : ApiOp), (runOp w op).jsonFile = w.jsonFile := by
    intro w op
    cases op <;> rfl
  refine ⟨hjson, ?_⟩
  intro ops
  induction ops with
  | nil => intro w; rfl
  | cons op ops ih =>
    intro w
    have hstep : runOps w (op :: ops) = runOps (runOp w op) ops := rfl
    rw [hstep, ih]
    unfold inventory_count load_inventory
    rw [hjson]
